import Mathlib

/-
Verification development for the error-log classification core of the
Prod-Monitoring repository.

The Python source operates on strings with `re` substitutions and searches.
We embed strings as `List Char` and give each concrete regular expression of
the source its own scanner, built from a small set of combinators that mirror
the Python `re` backtracking semantics (leftmost match position; at a given
position, greedy pieces try the longest extent first and back off, lazy pieces
try the shortest extent first and extend; alternatives are tried in written
order).  `re.sub` is embedded by `reSub`, which scans left to right, replaces
each non-overlapping match and resumes right after it, matching against the
original text only.  Character classes follow the ASCII reading of \w, \d, \s
(the inputs of interest are ASCII).
-/

namespace ProdMonitoring

abbrev Str := List Char

/-- The apostrophe character (avoids quoting issues in literals). -/
def SQ : Char := Char.ofNat 39

/-- The double-quote character. -/
def DQ : Char := Char.ofNat 34

/-- The opening curly brace character. -/
def LB : Char := Char.ofNat 123

/-- The closing curly brace character. -/
def RB : Char := Char.ofNat 125

/-- Python `\w` over ASCII: letters, digits, underscore. -/
def isWordChar (c : Char) : Bool := c.isAlphanum || c == '_'

/-- Python `\s` over ASCII: space, tab, newline, carriage return, vertical tab, form feed. -/
def isPySpace (c : Char) : Bool :=
  c == ' ' || c == '\t' || c == '\n' || c == '\r' || c == Char.ofNat 11 || c == Char.ofNat 12

/-- Lowercase hex digit, the class [0-9a-f]. -/
def isHexLower (c : Char) : Bool := c.isDigit || ('a' ≤ c && c ≤ 'f')

/-- Hex digit of either case, the class [0-9a-f] under IGNORECASE. -/
def isHexAnyCase (c : Char) : Bool :=
  c.isDigit || ('a' ≤ c && c ≤ 'f') || ('A' ≤ c && c ≤ 'F')

/-- Whether the character before the current position (none at string start)
fails to be a word character; this decides `\b` when the pattern starts with a
word character. -/
def prevNonWord : Option Char → Bool
  | none => true
  | some c => !isWordChar c

/-- Whether the character at the current position fails to be a word
character; this decides `\b` when the pattern ends with a word character. -/
def nextNonWord : Str → Bool
  | [] => true
  | c :: _ => !isWordChar c

/-- Word-boundary test between an optional previous character and the current
first character (general `\b`): exactly one side is a word character. -/
def atBoundary (prev : Option Char) (s : Str) : Bool :=
  (match prev with | none => false | some c => isWordChar c)
    != (match s with | [] => false | c :: _ => isWordChar c)

/-- Python str.strip(): drop leading and trailing whitespace. -/
def pyStrip (s : Str) : Str :=
  ((s.dropWhile isPySpace).reverse.dropWhile isPySpace).reverse

/-- Helper for `pySplit`: accumulate the current word (reversed) while
scanning. -/
def pySplitGo : Str → Str → List Str
  | w, [] => if w.isEmpty then [] else [w.reverse]
  | w, c :: r =>
    if isPySpace c then
      if w.isEmpty then pySplitGo [] r else w.reverse :: pySplitGo [] r
    else pySplitGo (c :: w) r

/-- Python str.split() with no argument: split on whitespace runs, dropping
empty pieces. -/
def pySplit (s : Str) : List Str := pySplitGo [] s

/-- Python str.split(sep) for a single-character separator (keeps empty
pieces). -/
def splitOnChar (sep : Char) (s : Str) : List Str :=
  s.foldr
    (fun c acc =>
      if c == sep then [] :: acc
      else
        match acc with
        | w :: ws => (c :: w) :: ws
        | [] => [[c]])
    [[]]

/-- Python `pattern in s` substring containment. -/
def containsSub (pat : Str) : Str → Bool
  | [] => pat.isEmpty
  | c :: rest => pat.isPrefixOf (c :: rest) || containsSub pat rest

/-- Python s.split(".")[-1]: the segment after the last dot (the whole string
when there is no dot). -/
def lastDotSegGo : Str → Str → Str
  | acc, [] => acc.reverse
  | acc, c :: r => if c == '.' then lastDotSegGo [] r else lastDotSegGo (c :: acc) r

/-- The last dot-separated segment of a string. -/
def lastDotSeg (s : Str) : Str := lastDotSegGo [] s

/- ## Matching combinators -/

/-- Consume an exact literal. -/
def lit : Str → Str → Option Str
  | [], s => some s
  | p :: ps, c :: cs => if c == p then lit ps cs else none
  | _ :: _, [] => none

/-- Consume a literal case-insensitively (the pattern is given in lowercase);
returns the matched slice in its original case together with the rest. -/
def litIC : Str → Str → Option (Str × Str)
  | [], s => some ([], s)
  | p :: ps, c :: cs =>
    if c.toLower == p then (litIC ps cs).map (fun m => (c :: m.1, m.2)) else none
  | _ :: _, [] => none

/-- Consume exactly n characters of a class. -/
def chomp (p : Char → Bool) : Nat → Str → Option Str
  | 0, s => some s
  | n + 1, c :: cs => if p c then chomp p n cs else none
  | _ + 1, [] => none

/-- Consume one character of a class. -/
def one (p : Char → Bool) : Str → Option (Char × Str)
  | c :: cs => if p c then some (c, cs) else none
  | [] => none

/-- The maximal run of a class and the rest (greedy `*` with no
backtracking). -/
def runMany (p : Char → Bool) (s : Str) : Str × Str := (s.takeWhile p, s.dropWhile p)

/-- The maximal nonempty run of a class and the rest (greedy `+` whose
follower cannot overlap the class). -/
def run1 (p : Char → Bool) (s : Str) : Option (Str × Str) :=
  let r := s.takeWhile p
  if r.isEmpty then none else some (r, s.dropWhile p)

/-- Backtracking helper: try the continuation on the currently taken run
(given reversed), then give back one character at a time. -/
def gbAux (k : Str → Str → Option α) : Str → Str → Option α
  | revTaken, rest =>
    match k revTaken.reverse rest with
    | some a => some a
    | none =>
      match revTaken with
      | [] => none
      | c :: rt => gbAux k rt (c :: rest)

/-- Greedy `*` with backtracking: feed the continuation the longest run of the
class first, then shorter and shorter prefixes. -/
def greedy (p : Char → Bool) (k : Str → Str → Option α) (s : Str) : Option α :=
  gbAux k (s.takeWhile p).reverse (s.dropWhile p)

/-- Greedy `+` with backtracking (at least one character). -/
def greedy1 (p : Char → Bool) (k : Str → Str → Option α) (s : Str) : Option α :=
  greedy p (fun run rest => if run.isEmpty then none else k run rest) s

/-- Greedy bounded repetition with backtracking, at most cap characters. -/
def greedyCap (cap : Nat) (p : Char → Bool) (k : Str → Str → Option α) (s : Str) :
    Option α :=
  let run := (s.takeWhile p).take cap
  gbAux k run.reverse (s.drop run.length)

/-- Lazy `*?` helper: try the continuation on the shortest extent first and
then extend one class character at a time. -/
def lazyAux (p : Char → Bool) (k : Str → Str → Option α) : Str → Str → Option α
  | revTaken, rest =>
    match k revTaken.reverse rest with
    | some a => some a
    | none =>
      match rest with
      | [] => none
      | c :: cs => if p c then lazyAux p k (c :: revTaken) cs else none

/-- Lazy `*?` with backtracking. -/
def lazy (p : Char → Bool) (k : Str → Str → Option α) (s : Str) : Option α :=
  lazyAux p k [] s

/-- Lazy `+?` with backtracking (at least one character). -/
def lazy1 (p : Char → Bool) (k : Str → Str → Option α) (s : Str) : Option α :=
  match s with
  | [] => none
  | c :: cs => if p c then lazyAux p k [c] cs else none

/- ## The substitution and search engines -/

/-- A substitution rule: given the character just before the current position
(none at string start) and the remaining input, attempt a match at this
position, returning the replacement text and the input remaining after the
match.  Every rule of this development consumes at least one character. -/
abbrev SubRule := Option Char → Str → Option (Str × Str)

/-- One pass of re.sub from a given left context: scan left to right, replace
each leftmost non-overlapping match and resume immediately after it, always
matching against the original text.  The first argument is fuel, structurally
decreasing; since every rule consumes at least one character per match (and
the scan otherwise advances one character), fuel equal to the input length is
always sufficient and the fuel-exhausted branch is unreachable. -/
def reSubGo (r : SubRule) : Nat → Option Char → Str → Str
  | 0, _, s => s
  | _ + 1, _, [] => []
  | fuel + 1, prev, c :: rest =>
    match r prev (c :: rest) with
    | some (repl, rest') =>
      if rest'.length ≤ rest.length then
        repl ++ reSubGo r fuel (((c :: rest).take (rest.length + 1 - rest'.length)).getLast?) rest'
      else
        c :: reSubGo r fuel (some c) rest
    | none => c :: reSubGo r fuel (some c) rest

/-- Python re.sub with a fixed replacement computed by the rule. -/
def reSub (r : SubRule) (s : Str) : Str := reSubGo r s.length none s

/-- Whether the rule matches at some position at or after the current one. -/
def reHasMatchFrom (r : SubRule) : Option Char → Str → Bool
  | prev, [] => (r prev []).isSome
  | prev, c :: rest => (r prev (c :: rest)).isSome || reHasMatchFrom r (some c) rest

/-- Whether the rule matches anywhere in the string. -/
def reHasMatch (r : SubRule) (s : Str) : Bool := reHasMatchFrom r none s

/-- Python re.search: return the payload of the match at the leftmost position
where the positional matcher succeeds. -/
def reFind (f : Option Char → Str → Option α) : Option Char → Str → Option α
  | prev, [] => f prev []
  | prev, c :: rest =>
    match f prev (c :: rest) with
    | some a => some a
    | none => reFind f (some c) rest

/- ## Rules of _normalize_error_message (csv_helper.py) -/

/-- Rule for re.sub(r'\b[0-9a-f]{8}-[0-9a-f]{4}-[0-9a-f]{4}-[0-9a-f]{4}-[0-9a-f]{12}\b',
'[UUID]', ..., flags=re.IGNORECASE): a UUID between word boundaries. -/
def uuidRule : SubRule := fun prev s =>
  if prevNonWord prev then
    (chomp isHexAnyCase 8 s).bind fun s1 =>
    (lit ['-'] s1).bind fun s2 =>
    (chomp isHexAnyCase 4 s2).bind fun s3 =>
    (lit ['-'] s3).bind fun s4 =>
    (chomp isHexAnyCase 4 s4).bind fun s5 =>
    (lit ['-'] s5).bind fun s6 =>
    (chomp isHexAnyCase 4 s6).bind fun s7 =>
    (lit ['-'] s7).bind fun s8 =>
    (chomp isHexAnyCase 12 s8).bind fun rest =>
    if nextNonWord rest then some (("[UUID]".data), rest) else none
  else none

/-- Rule for re.sub(r'\b[0-9a-f]{16}\b', '[HEX-ID]', ...): exactly sixteen
lowercase hex digits between word boundaries.  The repetition is fixed, so the
match succeeds exactly when the maximal hex run here has length 16 and is
followed by a non-word character. -/
def hex16Rule : SubRule := fun prev s =>
  if prevNonWord prev then
    match run1 isHexLower s with
    | some (r, rest) =>
      if r.length == 16 && nextNonWord rest then some (("[HEX-ID]".data), rest) else none
    | none => none
  else none

/-- Rule for re.sub(r'\b[0-9a-f]{12,}\b', '[HEX-ID]', ...) of
classify_errors.py: twelve or more lowercase hex digits between word
boundaries.  Greedy repetition followed by `\b` succeeds exactly on the
maximal run (shorter extents are followed by a hex character, a word
character), so the match requires the maximal run to have length at least 12
and to be followed by a non-word character. -/
def hex12Rule : SubRule := fun prev s =>
  if prevNonWord prev then
    match run1 isHexLower s with
    | some (r, rest) =>
      if decide (12 ≤ r.length) && nextNonWord rest then some (("[HEX-ID]".data), rest) else none
    | none => none
  else none

/-- The optional fractional-seconds group (?:\.\d+)? of the timestamp rule: a
dot followed by a nonempty digit run is consumed when present, otherwise
nothing is. -/
def tsFraction (s : Str) : Str :=
  match s with
  | c :: t =>
    if c == '.' then
      match run1 Char.isDigit t with
      | some r => r.2
      | none => s
    else s
  | [] => s

/-- The optional trailing Z? of the timestamp rule. -/
def tsZee (s : Str) : Str :=
  match s with
  | c :: t => if c == 'Z' then t else s
  | [] => s

/-- Rule for re.sub(r'\d{4}-\d{2}-\d{2}T\d{2}:\d{2}:\d{2}(?:\.\d+)?Z?',
'[TIMESTAMP]', ...): an ISO timestamp with optional fractional seconds and
optional trailing Z; no word boundaries. -/
def timestampRule : SubRule := fun _ s =>
  (chomp Char.isDigit 4 s).bind fun s1 =>
  (lit ['-'] s1).bind fun s2 =>
  (chomp Char.isDigit 2 s2).bind fun s3 =>
  (lit ['-'] s3).bind fun s4 =>
  (chomp Char.isDigit 2 s4).bind fun s5 =>
  (lit ['T'] s5).bind fun s6 =>
  (chomp Char.isDigit 2 s6).bind fun s7 =>
  (lit [':'] s7).bind fun s8 =>
  (chomp Char.isDigit 2 s8).bind fun s9 =>
  (lit [':'] s9).bind fun s10 =>
  (chomp Char.isDigit 2 s10).bind fun s11 =>
  some (("[TIMESTAMP]".data), tsZee (tsFraction s11))

/-- Rule for re.sub(r'\d{2}:\d{2}:\d{2}\.\d+', '[TIME]', ...). -/
def timeRule : SubRule := fun _ s =>
  (chomp Char.isDigit 2 s).bind fun s1 =>
  (lit [':'] s1).bind fun s2 =>
  (chomp Char.isDigit 2 s2).bind fun s3 =>
  (lit [':'] s3).bind fun s4 =>
  (chomp Char.isDigit 2 s4).bind fun s5 =>
  (lit ['.'] s5).bind fun s6 =>
  (run1 Char.isDigit s6).map fun r => (("[TIME]".data), r.2)

/-- Rule for re.sub(r"'[0-9]+'", "'[ID]'", ...): a single-quoted run of
digits. -/
def quotedIdRule : SubRule := fun _ s =>
  (lit [SQ] s).bind fun s1 =>
  (run1 Char.isDigit s1).bind fun r =>
  (lit [SQ] r.2).map fun rest => ([SQ] ++ "[ID]".data ++ [SQ], rest)

/-- Rule for re.sub(r'\[\w+_\w+_\w+_\w+\d+\]', '[TENANT]', ...): a bracketed
token decomposable as four word-runs joined by underscores and ending in
digits before the closing bracket; full backtracking over the `\w+` runs. -/
def tenantRule : SubRule := fun _ s =>
  (lit ['['] s).bind fun s1 =>
  greedy1 isWordChar (fun _a1 r1 =>
    (lit ['_'] r1).bind fun r2 =>
    greedy1 isWordChar (fun _a2 r3 =>
      (lit ['_'] r3).bind fun r4 =>
      greedy1 isWordChar (fun _a3 r5 =>
        (lit ['_'] r5).bind fun r6 =>
        greedy1 isWordChar (fun _a4 r7 =>
          (run1 Char.isDigit r7).bind fun d =>
          (lit [']'] d.2).map fun rest => (("[TENANT]".data), rest)) r6) r4) r2) s1

/-- Rule for re.sub(r'Name\{[^}]+\}', 'Name{...}', ...) for a fixed wrapper
name: the literal name, an opening brace, at least one non-brace character
(greedy, so the maximal run, whose follower is the closing brace if any), and
the closing brace. -/
def wrapperRule (name : Str) : SubRule := fun _ s =>
  (lit name s).bind fun s1 =>
  (lit [LB] s1).bind fun s2 =>
  (run1 (fun d => d != RB) s2).bind fun r =>
  (lit [RB] r.2).map fun rest => (name ++ [LB] ++ "...".data ++ [RB], rest)

/-- Rule for re.sub(r'\[[^\]]{N,}\]', '[...]', ...): a bracketed block whose
content (the maximal run of non-bracket characters) has at least N
characters. -/
def bracketRule (minLen : Nat) : SubRule := fun _ s =>
  (lit ['['] s).bind fun s1 =>
  let r := runMany (fun d => d != ']') s1
  if decide (minLen ≤ r.1.length) then
    (lit [']'] r.2).map fun rest => (("[...]".data), rest)
  else none

/-- Rule for re.sub(r'\b\d{3,}\b', '[NUM]', ...): three or more digits between
word boundaries; greedy repetition followed by `\b` succeeds exactly on the
maximal digit run. -/
def numRule : SubRule := fun prev s =>
  if prevNonWord prev then
    match run1 Char.isDigit s with
    | some (r, rest) =>
      if decide (3 ≤ r.length) && nextNonWord rest then some (("[NUM]".data), rest) else none
    | none => none
  else none

/-- The normalizer of csv_helper.py, _normalize_error_message: the eleven
substitutions in source order, then ' '.join(message.split()). -/
def normalize_error_message (message : Str) : Str :=
  let m := reSub uuidRule message
  let m := reSub hex16Rule m
  let m := reSub timestampRule m
  let m := reSub timeRule m
  let m := reSub quotedIdRule m
  let m := reSub tenantRule m
  let m := reSub (wrapperRule ("BaseSCRRequest".data)) m
  let m := reSub (wrapperRule ("RequestedChanges".data)) m
  let m := reSub (wrapperRule ("ActivityChange".data)) m
  let m := reSub (bracketRule 50) m
  let m := reSub numRule m
  List.intercalate ([' ']) (pySplit m)

/-- The normalizer of classify_errors.py, normalize_error_message: identical
to the csv_helper one except for the extra 12-or-more hex rule right after the
16-hex rule. -/
def cls_normalize_error_message (message : Str) : Str :=
  let m := reSub uuidRule message
  let m := reSub hex16Rule m
  let m := reSub hex12Rule m
  let m := reSub timestampRule m
  let m := reSub timeRule m
  let m := reSub quotedIdRule m
  let m := reSub tenantRule m
  let m := reSub (wrapperRule ("BaseSCRRequest".data)) m
  let m := reSub (wrapperRule ("RequestedChanges".data)) m
  let m := reSub (wrapperRule ("ActivityChange".data)) m
  let m := reSub (bracketRule 50) m
  let m := reSub numRule m
  List.intercalate ([' ']) (pySplit m)

/- ## Rules of anonymizer.py -/

/-- Rule for re.sub(r"\[[A-Za-z0-9][A-Za-z0-9._]*\d{3,}\]", "[TENANT_REDACTED]", ...):
a bracketed token starting alphanumeric whose tail (over letters, digits, dot,
underscore) ends in at least three digits before the closing bracket. -/
def tenantBracketRule : SubRule := fun _ s =>
  (lit ['['] s).bind fun s1 =>
  (one (fun d => d.isAlphanum) s1).bind fun o =>
  greedy (fun d => d.isAlphanum || d == '.' || d == '_') (fun _mid r =>
    (run1 Char.isDigit r).bind fun ds =>
    if decide (3 ≤ ds.1.length) then
      (lit [']'] ds.2).map fun rest => (("[TENANT_REDACTED]".data), rest)
    else none) o.2

/-- Tail of `tenantKeywordBracketRule` after the keyword: [:=] then \s* then
at least one non-bracket character (greedy) then the closing bracket. -/
def tenantKwBracketTail (r : Str) : Option (Str × Str) :=
  (one (fun d => d == ':' || d == '=') r).bind fun o =>
  greedy isPySpace (fun _sp r2 =>
    (run1 (fun d => d != ']') r2).bind fun v =>
    (lit [']'] v.2).map fun rest => (("[TENANT_REDACTED]".data), rest)) o.2

/-- Rule for re.sub(r"\[(tenant|customer|org|organization|account)[:=]\s*[^\]]+\]",
"[TENANT_REDACTED]", ..., flags=re.IGNORECASE); the alternatives are tried in
source order with the rest of the pattern as continuation. -/
def tenantKeywordBracketRule : SubRule := fun _ s =>
  (lit ['['] s).bind fun s1 =>
  ((litIC ("tenant".data) s1).bind fun m => tenantKwBracketTail m.2).orElse fun _ =>
  ((litIC ("customer".data) s1).bind fun m => tenantKwBracketTail m.2).orElse fun _ =>
  ((litIC ("org".data) s1).bind fun m => tenantKwBracketTail m.2).orElse fun _ =>
  ((litIC ("organization".data) s1).bind fun m => tenantKwBracketTail m.2).orElse fun _ =>
  ((litIC ("account".data) s1).bind fun m => tenantKwBracketTail m.2)

/-- Value alternatives of the key/value tenant rule:
'([^']+)'  |  "([^"]+)"  |  [^,\s\]}]+  — tried in order; the replacement is
the matched keyword followed by =[TENANT_REDACTED]. -/
def tenantKvValue (kw : Str) (r : Str) : Option (Str × Str) :=
  ((lit [SQ] r).bind fun r1 =>
    (run1 (fun d => d != SQ) r1).bind fun v =>
    (lit [SQ] v.2).map fun rest => (kw ++ "=[TENANT_REDACTED]".data, rest)).orElse fun _ =>
  ((lit [DQ] r).bind fun r1 =>
    (run1 (fun d => d != DQ) r1).bind fun v =>
    (lit [DQ] v.2).map fun rest => (kw ++ "=[TENANT_REDACTED]".data, rest)).orElse fun _ =>
  ((run1 (fun d => d != ',' && d != ']' && d != RB && !isPySpace d) r).map fun v =>
    (kw ++ "=[TENANT_REDACTED]".data, v.2))

/-- Tail of the key/value tenant rule after a candidate keyword: the trailing
word boundary, \s*, [:=], \s*, then the value alternatives. -/
def tenantKvTail (kw : Str) (r : Str) : Option (Str × Str) :=
  if nextNonWord r then
    greedy isPySpace (fun _ r1 =>
      (one (fun d => d == ':' || d == '=') r1).bind fun o =>
      greedy isPySpace (fun _ r2 => tenantKvValue kw r2) o.2) r
  else none

/-- Rule for re.sub(r"\b(tenantId|tenantID|tenant|tenantName|customer|customerName|organization|organizationName|org|account|accountName)\b\s*[:=]\s*('([^']+)'|\"([^\"]+)\"|([^,\s\]}]+))",
lambda m: m.group(1) + "=[TENANT_REDACTED]", ..., flags=re.IGNORECASE); the
keyword alternatives are tried in source order (under IGNORECASE, tenantId and
tenantID are the same matcher) and the replacement keeps the keyword exactly
as it appeared in the text. -/
def tenantKvRule : SubRule := fun prev s =>
  if prevNonWord prev then
    ((litIC ("tenantid".data) s).bind fun m => tenantKvTail m.1 m.2).orElse fun _ =>
    ((litIC ("tenant".data) s).bind fun m => tenantKvTail m.1 m.2).orElse fun _ =>
    ((litIC ("tenantname".data) s).bind fun m => tenantKvTail m.1 m.2).orElse fun _ =>
    ((litIC ("customer".data) s).bind fun m => tenantKvTail m.1 m.2).orElse fun _ =>
    ((litIC ("customername".data) s).bind fun m => tenantKvTail m.1 m.2).orElse fun _ =>
    ((litIC ("organization".data) s).bind fun m => tenantKvTail m.1 m.2).orElse fun _ =>
    ((litIC ("organizationname".data) s).bind fun m => tenantKvTail m.1 m.2).orElse fun _ =>
    ((litIC ("org".data) s).bind fun m => tenantKvTail m.1 m.2).orElse fun _ =>
    ((litIC ("account".data) s).bind fun m => tenantKvTail m.1 m.2).orElse fun _ =>
    ((litIC ("accountname".data) s).bind fun m => tenantKvTail m.1 m.2)
  else none

/-- Rule for re.sub(r"(/tenants/)([^/?\s]+)", r"\1[TENANT_REDACTED]", ...,
flags=re.IGNORECASE). -/
def tenantUrlPathRule : SubRule := fun _ s =>
  (litIC ("/tenants/".data) s).bind fun m =>
  (run1 (fun d => d != '/' && d != '?' && !isPySpace d) m.2).map fun v =>
  (m.1 ++ "[TENANT_REDACTED]".data, v.2)

/-- Shared tail of the tenant query rule: the equals sign and the value
[^&\s]+; the replacement keeps the matched key text. -/
def tenantQueryEq (g : Str) (r : Str) : Option (Str × Str) :=
  (lit ['='] r).bind fun r1 =>
  (run1 (fun d => d != '&' && !isPySpace d) r1).map fun v =>
  (g ++ ['='] ++ "[TENANT_REDACTED]".data, v.2)

/-- Rule for re.sub(r"(tenant(?:Id|ID|Name)?=)([^&\s]+)", r"\1[TENANT_REDACTED]",
..., flags=re.IGNORECASE): under IGNORECASE the Id and ID alternatives are the
same matcher, so the optional group tries "id", then "name", then nothing. -/
def tenantQueryRule : SubRule := fun _ s =>
  (litIC ("tenant".data) s).bind fun m =>
  ((litIC ("id".data) m.2).bind fun g => tenantQueryEq (m.1 ++ g.1) g.2).orElse fun _ =>
  ((litIC ("name".data) m.2).bind fun g => tenantQueryEq (m.1 ++ g.1) g.2).orElse fun _ =>
  tenantQueryEq m.1 m.2

/-- Local-part class of the email rule: [A-Za-z0-9._%+-]. -/
def isEmailLocal (c : Char) : Bool :=
  c.isAlphanum || c == '.' || c == '_' || c == '%' || c == '+' || c == '-'

/-- Domain class of the email rule: [A-Za-z0-9.-]. -/
def isEmailDomain (c : Char) : Bool := c.isAlphanum || c == '.' || c == '-'

/-- Top-level-domain class of the email rule, the literal class [A-Z|a-z]
(which contains the pipe character). -/
def isEmailTld (c : Char) : Bool := c.isUpper || c.isLower || c == '|'

/-- Word-boundary test after a match ending in the given character. -/
def endBoundary (last : Char) (rest : Str) : Bool :=
  isWordChar last != (match rest with | [] => false | c :: _ => isWordChar c)

/-- Rule for re.sub(r'\b[A-Za-z0-9._%+-]+@[A-Za-z0-9.-]+\.[A-Z|a-z]{2,}\b',
'[EMAIL_REDACTED]', ...).  The leading `\b` is a genuine boundary test (the
first matched character may be a non-word character such as a dot); the
trailing `\b` is tested between the last character of the top-level domain and
the following character. -/
def emailRule : SubRule := fun prev s =>
  if atBoundary prev s then
    greedy1 isEmailLocal (fun _ r =>
      (lit ['@'] r).bind fun r1 =>
      greedy1 isEmailDomain (fun _ r2 =>
        (lit ['.'] r2).bind fun r3 =>
        greedy1 isEmailTld (fun tld rest =>
          if decide (2 ≤ tld.length) &&
              (match tld.getLast? with
               | some l => endBoundary l rest
               | none => false) then
            some (("[EMAIL_REDACTED]".data), rest)
          else none) r3) r1) s
  else none

/-- Rule for a fixed-key single-quoted field such as
re.sub(r"userName='([^']+)'", "userName='[REPL]'", ...): the literal key text
(including the equals sign), an apostrophe, at least one non-apostrophe
character, an apostrophe. -/
def quotedFieldRule (key repl : Str) : SubRule := fun _ s =>
  (lit (key ++ [SQ]) s).bind fun s1 =>
  (run1 (fun d => d != SQ) s1).bind fun v =>
  (lit [SQ] v.2).map fun rest => (key ++ [SQ] ++ repl ++ [SQ], rest)

/-- Rule for re.sub(r'"userName"\s*:\s*"([^"]+)"', '"userName":"[USER_NAME_REDACTED]"', ...). -/
def jsonUserNameRule : SubRule := fun _ s =>
  (lit ([DQ] ++ "userName".data ++ [DQ]) s).bind fun s1 =>
  greedy isPySpace (fun _ r1 =>
    (lit [':'] r1).bind fun r2 =>
    greedy isPySpace (fun _ r3 =>
      (lit [DQ] r3).bind fun r4 =>
      (run1 (fun d => d != DQ) r4).bind fun v =>
      (lit [DQ] v.2).map fun rest =>
        ([DQ] ++ "userName".data ++ [DQ] ++ [':'] ++ [DQ] ++ "[USER_NAME_REDACTED]".data ++ [DQ],
         rest)) r2) s1

/-- Rule for re.sub(r'\b([A-Z][a-z]+\s+[A-Z][a-z]+)\b(?=[\s,\'\"])',
'[NAME_REDACTED]', ...): two capitalized words.  The lowercase runs are
maximal (a shorter extent is followed by a lowercase letter, which fails the
following \s+ or \b), the trailing `\b` and the lookahead together require the
next character to be whitespace, a comma or a quote, and the lookahead
consumes nothing. -/
def nameRule : SubRule := fun prev s =>
  if prevNonWord prev then
    (one Char.isUpper s).bind fun o1 =>
    (run1 Char.isLower o1.2).bind fun w1 =>
    (run1 isPySpace w1.2).bind fun sp =>
    (one Char.isUpper sp.2).bind fun o2 =>
    (run1 Char.isLower o2.2).bind fun w2 =>
    match w2.2 with
    | c :: _ =>
      if isPySpace c || c == ',' || c == SQ || c == DQ then
        some (("[NAME_REDACTED]".data), w2.2)
      else none
    | [] => none
  else none

/-- Rule for re.sub(r'\[user:\s*([^\]]+)\]', '[user:[USER_REDACTED]]', ...,
flags=re.IGNORECASE). -/
def userBracketRule : SubRule := fun _ s =>
  (litIC ("[user:".data) s).bind fun m =>
  greedy isPySpace (fun _ r1 =>
    (run1 (fun d => d != ']') r1).bind fun v =>
    (lit [']'] v.2).map fun rest => (("[user:[USER_REDACTED]]".data), rest)) m.2

/-- Optional separator of the phone rule, the class [-.\s] with `?`: greedily
try consuming one separator first, then none. -/
def phoneSep (k : Str → Option α) (s : Str) : Option α :=
  (match s with
   | c :: r => if c == '-' || c == '.' || isPySpace c then k r else none
   | [] => none).orElse fun _ => k s

/-- Rule for re.sub(r'\b\d{3}[-.\s]?\d{3}[-.\s]?\d{4}\b', '[PHONE_REDACTED]', ...). -/
def phoneRule : SubRule := fun prev s =>
  if prevNonWord prev then
    (chomp Char.isDigit 3 s).bind fun s1 =>
    phoneSep (fun s2 =>
      (chomp Char.isDigit 3 s2).bind fun s3 =>
      phoneSep (fun s4 =>
        (chomp Char.isDigit 4 s4).bind fun rest =>
        if nextNonWord rest then some (("[PHONE_REDACTED]".data), rest) else none) s3) s1
  else none

/-- The function _redact_tenant_like_values of anonymizer.py: the five tenant
substitutions in source order (empty input is returned unchanged). -/
def redact_tenant_like_values (text : Str) : Str :=
  if text.isEmpty then text
  else
    let t := reSub tenantBracketRule text
    let t := reSub tenantKeywordBracketRule t
    let t := reSub tenantKvRule t
    let t := reSub tenantUrlPathRule t
    reSub tenantQueryRule t

/-- The function anonymize_log_message of anonymizer.py: tenant masking first,
the eight PII substitutions in source order, then tenant masking again; empty
or whitespace-only input is returned unchanged. -/
def anonymize_log_message (message : Str) : Str :=
  if message.isEmpty || (pyStrip message).isEmpty then message
  else
    let a := redact_tenant_like_values message
    let a := reSub emailRule a
    let a := reSub (quotedFieldRule ("userName=".data) ("[USER_NAME_REDACTED]".data)) a
    let a := reSub jsonUserNameRule a
    let a := reSub nameRule a
    let a := reSub (quotedFieldRule ("statusUpdaterName=".data) ("[NAME_REDACTED]".data)) a
    let a := reSub (quotedFieldRule ("userComment=".data) ("[COMMENT_REDACTED]".data)) a
    let a := reSub userBracketRule a
    let a := reSub phoneRule a
    redact_tenant_like_values a

/- ## Rules of _normalize_first_error_line (csv_helper.py) -/

/-- Rule for re.sub(r'\b\w+\{[^\n\r]{0,2000}\}', lambda m: m.group(0).split('{', 1)[0] + '{...}', ...):
a word run, an opening brace, up to 2000 same-line characters (greedy, so the
content extends to the last feasible closing brace within the cap), and a
closing brace; the replacement keeps the text before the first brace, which is
the word run. -/
def payloadRule : SubRule := fun prev s =>
  if prevNonWord prev then
    (run1 isWordChar s).bind fun w =>
    (lit [LB] w.2).bind fun s2 =>
    greedyCap 2000 (fun d => d != '\n' && d != '\r') (fun _content r =>
      (lit [RB] r).map fun rest => (w.1 ++ [LB] ++ "...".data ++ [RB], rest)) s2
  else none

/-- Rule for re.sub(r'https?://\S+', '[URL]', ...): the optional s is tried
first (greedy `?`). -/
def urlRule : SubRule := fun _ s =>
  (lit ("http".data) s).bind fun s1 =>
  (((lit ['s'] s1).bind fun s2 => lit ("://".data) s2).orElse fun _ =>
    lit ("://".data) s1).bind fun s3 =>
  (run1 (fun d => !isPySpace d) s3).map fun v => (("[URL]".data), v.2)

/-- Rule for re.sub(r"\b\w+=[^,\s]{12,}", "key=[...]", ...): a word run, an
equals sign, and at least twelve characters that are neither comma nor
whitespace (greedy, maximal); the replacement is the literal text key=[...]. -/
def kvLongRule : SubRule := fun prev s =>
  if prevNonWord prev then
    (run1 isWordChar s).bind fun w =>
    (lit ['='] w.2).bind fun s2 =>
    (run1 (fun d => d != ',' && !isPySpace d) s2).bind fun v =>
    if decide (12 ≤ v.1.length) then some (("key=[...]".data), v.2) else none
  else none

/-- Rule for re.sub(r"'[^']{12,}'", "'[...']", ...): a single-quoted run of at
least twelve non-quote characters; the replacement is the literal text
'[...'] . -/
def sqLongRule : SubRule := fun _ s =>
  (lit [SQ] s).bind fun s1 =>
  (run1 (fun d => d != SQ) s1).bind fun v =>
  if decide (12 ≤ v.1.length) then
    (lit [SQ] v.2).map fun rest => ([SQ] ++ "[...".data ++ [SQ] ++ [']'], rest)
  else none

/-- Rule for re.sub(r'"[^"]{12,}"', '"..."', ...). -/
def dqLongRule : SubRule := fun _ s =>
  (lit [DQ] s).bind fun s1 =>
  (run1 (fun d => d != DQ) s1).bind fun v =>
  if decide (12 ≤ v.1.length) then
    (lit [DQ] v.2).map fun rest => ([DQ] ++ "...".data ++ [DQ], rest)
  else none

/-- Rule for re.sub(r'\s+', ' ', ...): a whitespace run collapses to one
space. -/
def wsRule : SubRule := fun _ s =>
  (run1 isPySpace s).map fun r => ([' '], r.2)

/-- The inner helper _normalize_first_error_line of _extract_error_signature:
payload wrappers, long bracket blocks (at least 40 characters), URLs, long
key=value pairs, long quoted literals, then whitespace collapse and strip;
empty input returns empty. -/
def normalize_first_error_line (text : Str) : Str :=
  if text.isEmpty then []
  else
    let t := reSub payloadRule text
    let t := reSub (bracketRule 40) t
    let t := reSub urlRule t
    let t := reSub kvLongRule t
    let t := reSub sqLongRule t
    let t := reSub dqLongRule t
    pyStrip (reSub wsRule t)

/- ## Search patterns of _extract_error_signature and _extract_error_location -/

/-- Positional matcher for re.search(r'\bERROR\s+(\S+)', ...): returns
group 1. -/
def mLogger : Option Char → Str → Option Str := fun prev s =>
  if prevNonWord prev then
    (lit ("ERROR".data) s).bind fun s1 =>
    (run1 isPySpace s1).bind fun sp =>
    (run1 (fun c => !isPySpace c) sp.2).map fun g => g.1
  else none

/-- The search re.search(r'\bERROR\s+(\S+)', log_message). -/
def find_error_logger (s : Str) : Option Str := reFind mLogger none s

/-- Common tail of the exception pattern after the alternation:
`:\s*(.+?)(?:\n|$)` — a colon, greedy whitespace, then a lazy nonempty run of
non-newline characters whose follower is a newline or the end of input.
Returns (group 1, group 2). -/
def excTail (g1 : Str) (s : Str) : Option (Str × Str) :=
  (lit [':'] s).bind fun s1 =>
  greedy isPySpace (fun _sp s2 =>
    lazy1 (fun c => c != '\n') (fun g2 rest =>
      match rest with
      | [] => some (g1, g2)
      | c :: _ => if c == '\n' then some (g1, g2) else none) s2) s1

/-- First alternative of the exception pattern: java\.lang\.\w+Exception. -/
def excAlt1 (s : Str) : Option (Str × Str) :=
  (lit ("java.lang.".data) s).bind fun s1 =>
  greedy1 isWordChar (fun w r =>
    (lit ("Exception".data) r).bind fun r1 =>
    excTail ("java.lang.".data ++ w ++ "Exception".data) r1) s1

/-- Second alternative of the exception pattern: com\.nice\.saas\.wfo\.\S+Exception. -/
def excAlt2 (s : Str) : Option (Str × Str) :=
  (lit ("com.nice.saas.wfo.".data) s).bind fun s1 =>
  greedy1 (fun c => !isPySpace c) (fun w r =>
    (lit ("Exception".data) r).bind fun r1 =>
    excTail ("com.nice.saas.wfo.".data ++ w ++ "Exception".data) r1) s1

/-- Third alternative of the exception pattern: \w+Exception. -/
def excAlt3 (s : Str) : Option (Str × Str) :=
  greedy1 isWordChar (fun w r =>
    (lit ("Exception".data) r).bind fun r1 =>
    excTail (w ++ "Exception".data) r1) s

/-- Positional matcher for the exception pattern
r'(java\.lang\.\w+Exception|com\.nice\.saas\.wfo\.\S+Exception|\w+Exception):\s*(.+?)(?:\n|$)':
the alternatives are tried in source order, each with the common tail as
continuation. -/
def mException : Option Char → Str → Option (Str × Str) := fun _ s =>
  (excAlt1 s).orElse fun _ => (excAlt2 s).orElse fun _ => excAlt3 s

/-- The search for the exception pattern over the whole message. -/
def find_exception (s : Str) : Option (Str × Str) := reFind mException none s

/-- Positional matcher for re.search(r'\bERROR\b[^\n]*?\]\s+(.+?)(?:\n|$)', ...):
returns group 1. -/
def mFirstErrLine : Option Char → Str → Option Str := fun prev s =>
  if prevNonWord prev then
    (lit ("ERROR".data) s).bind fun s1 =>
    if nextNonWord s1 then
      lazy (fun c => c != '\n') (fun _ r =>
        (lit [']'] r).bind fun r1 =>
        greedy1 isPySpace (fun _ r2 =>
          lazy1 (fun c => c != '\n') (fun g rest =>
            match rest with
            | [] => some g
            | c :: _ => if c == '\n' then some g else none) r2) r1) s1
    else none
  else none

/-- The search re.search(r'\bERROR\b[^\n]*?\]\s+(.+?)(?:\n|$)', log_message). -/
def find_first_error_line (s : Str) : Option Str := reFind mFirstErrLine none s

/-- Positional matcher for the severity fallback pattern
r'ERROR\s+(\S+)\s+.*?\]\s+(.+?)(?:\n|$)': returns (group 1, group 2). -/
def mErrorPat : Option Char → Str → Option (Str × Str) := fun _ s =>
  (lit ("ERROR".data) s).bind fun s1 =>
  greedy1 isPySpace (fun _ s2 =>
    greedy1 (fun c => !isPySpace c) (fun g1 s3 =>
      greedy1 isPySpace (fun _ s4 =>
        lazy (fun c => c != '\n') (fun _ r =>
          (lit [']'] r).bind fun r1 =>
          greedy1 isPySpace (fun _ r2 =>
            lazy1 (fun c => c != '\n') (fun g2 rest =>
              match rest with
              | [] => some (g1, g2)
              | c :: _ => if c == '\n' then some (g1, g2) else none) r2) r1) s4) s3) s2) s1

/-- The search for the severity fallback pattern. -/
def find_error_pattern (s : Str) : Option (Str × Str) := reFind mErrorPat none s

/-- Positional matcher for re.search(r'at (com\.nice\.saas\.wfo\.\w+\.[\w\.]+)\.(\w+)\(', ...):
returns (group 1, group 2).  The first \w+ is maximal (its follower is a dot);
the [\w\.]+ run backtracks against the following dot, method name and opening
parenthesis. -/
def mAtLocation : Option Char → Str → Option (Str × Str) := fun _ s =>
  (lit ("at ".data) s).bind fun s1 =>
  (lit ("com.nice.saas.wfo.".data) s1).bind fun s2 =>
  (run1 isWordChar s2).bind fun w1 =>
  (lit ['.'] w1.2).bind fun s3 =>
  greedy1 (fun c => isWordChar c || c == '.') (fun mid r =>
    (lit ['.'] r).bind fun r1 =>
    (run1 isWordChar r1).bind fun meth =>
    (lit ['('] meth.2).map fun _ =>
      ("com.nice.saas.wfo.".data ++ w1.1 ++ ['.'] ++ mid, meth.1)) s3

/-- Positional matcher for re.search(r'ERROR\s+(com\.nice\.saas\.wfo\.\S+)', ...):
returns group 1. -/
def mErrLocation : Option Char → Str → Option Str := fun _ s =>
  (lit ("ERROR".data) s).bind fun s1 =>
  greedy1 isPySpace (fun _ s2 =>
    (lit ("com.nice.saas.wfo.".data) s2).bind fun s3 =>
    (run1 (fun c => !isPySpace c) s3).map fun w =>
      "com.nice.saas.wfo.".data ++ w.1) s1

/-- The function _extract_error_location of csv_helper.py. -/
def extract_error_location (log_message : Str) : Str :=
  match reFind mAtLocation none log_message with
  | some (class_path, method) => lastDotSeg class_path ++ ['.'] ++ method
  | none =>
    match reFind mErrLocation none log_message with
    | some class_path => lastDotSeg class_path
    | none => "Unknown".data

/-- The genericity test of _extract_error_signature on the normalized
exception message: `not normalized_message or normalized_message in
{"", "{}", "unknown", "n/a"} or startswith("at com.") or startswith("at org.")`. -/
def isGenericNorm (nm : Str) : Bool :=
  nm.isEmpty || nm == [LB, RB] || nm == "unknown".data || nm == "n/a".data
  || ("at com.".data).isPrefixOf nm || ("at org.".data).isPrefixOf nm

/-- The function _extract_error_signature of csv_helper.py, returning
(error_type, location, signature). -/
def extract_error_signature (log_message : Str) : Str × Str × Str :=
  if log_message.isEmpty || (pyStrip log_message).isEmpty then
    ("Unknown".data, "Unknown".data, "Empty log message".data)
  else
    let first_logger :=
      match find_error_logger log_message with
      | some g => lastDotSeg g
      | none => []
    match find_exception log_message with
    | some (g1, g2) =>
      let exception_type := lastDotSeg g1
      let normalized_message := normalize_error_message (pyStrip g2)
      let location := extract_error_location log_message
      if isGenericNorm normalized_message then
        let first_error_line :=
          match find_first_error_line log_message with
          | some g => pyStrip g
          | none => []
        let first_error_line_norm :=
          normalize_error_message (normalize_first_error_line first_error_line)
        let parts :=
          [exception_type]
            ++ (if first_logger.isEmpty then [] else [first_logger])
            ++ (if first_error_line_norm.isEmpty then [] else [first_error_line_norm])
        (exception_type, location, List.intercalate (" | ".data) parts)
      else
        (exception_type, location, exception_type ++ ": ".data ++ normalized_message)
    | none =>
      match find_error_pattern log_message with
      | some (g1, g2) =>
        let class_name := lastDotSeg g1
        let normalized_msg := normalize_error_message (pyStrip g2)
        ("ERROR".data, class_name,
          "ERROR in ".data ++ class_name ++ ": ".data ++ normalized_msg)
      | none =>
        let first_line := (log_message.takeWhile (fun c => c != '\n')).take 200
        ("Unknown".data, "Unknown".data, normalize_error_message first_line)

/- ## Cleaning (log_helper.py) -/

/-- The tuple of line-level noise substrings of clean_log_message. -/
def noiseSubstrings : List Str :=
  [("shared.restclient".data), ("platform.shared".data), ("platform.boot".data),
   ("java.base".data), ("org.springframework".data), ("org.apache".data),
   ("jakarta.servlet".data), ("jdk.internal".data), ("fasterxml.jackson".data)]

/-- The per-line treatment of clean_log_message: skip the line when its strip
is empty or when it contains a noise substring; otherwise replace carriage
returns and tabs by spaces, collapse whitespace with ' '.join(line.split())
and keep the result when nonempty. -/
def cleanLine (line : Str) : Option Str :=
  if (pyStrip line).isEmpty then none
  else if noiseSubstrings.any (fun p => containsSub p line) then none
  else
    let replaced := line.map fun c => if c == '\r' then ' ' else if c == '\t' then ' ' else c
    let normalized := List.intercalate ([' ']) (pySplit replaced)
    if normalized.isEmpty then none else some normalized

/-- The function clean_log_message of log_helper.py: split on newlines, clean
each line, join the kept lines with newlines; empty or whitespace-only input
returns empty. -/
def clean_log_message (message : Str) : Str :=
  if message.isEmpty || (pyStrip message).isEmpty then []
  else List.intercalate (['\n']) ((splitOnChar '\n' message).filterMap cleanLine)

/-- The function should_exclude_log of log_helper.py. -/
def should_exclude_log (message : Str) : Bool :=
  message.isEmpty || (pyStrip message).isEmpty
    || containsSub ("NotificationDispatcherImpl".data) message

/-- The function process_log_events of log_helper.py over (timestamp, message)
pairs, with anonymization enabled as configured (ANONYMIZE_LOGS = True):
excluded events are dropped, remaining messages are cleaned, empty results are
dropped, and the kept messages are anonymized. -/
def process_log_events (events : List (Str × Str)) : List (Str × Str) :=
  events.filterMap fun e =>
    if should_exclude_log e.2 then none
    else
      let cleaned := clean_log_message e.2
      if cleaned.isEmpty then none
      else some (e.1, anonymize_log_message cleaned)

/- ## Aggregation (classify_and_save_errors of csv_helper.py) -/

/-- The per-signature rollup accumulated by classify_and_save_errors:
occurrence count (error_signatures), first sample (error_examples),
timestamps (error_timestamps) and last-written type and location
(error_details). -/
structure AggRecord where
  signature : Str
  count : Nat
  sample_message : Str
  timestamps : List Str
  error_type : Str
  location : Str
deriving Repr, DecidableEq

/-- One loop iteration of classify_and_save_errors over a CSV row: empty
messages are skipped; the signature is extracted; the counter is incremented;
the sample message is stored only on first sight; the timestamp is appended; type and
location are overwritten.  Records are kept in first-encounter order, which is
the iteration order of the Python Counter. -/
def aggStep (recs : List AggRecord) (row : Str × Str) : List AggRecord :=
  if row.2.isEmpty then recs
  else
    let e := extract_error_signature row.2
    if recs.any (fun r => r.signature == e.2.2) then
      recs.map fun r =>
        if r.signature == e.2.2 then
          { r with
            count := r.count + 1
            timestamps := r.timestamps ++ [row.1]
            error_type := e.1
            location := e.2.1 }
        else r
    else
      recs ++ [⟨e.2.2, 1, row.2, [row.1], e.1, e.2.1⟩]

/-- The read-and-classify loop of classify_and_save_errors over the rows of
error_logs.csv, in first-encounter order. -/
def aggregate_rows (rows : List (Str × Str)) : List AggRecord :=
  rows.foldl aggStep []

/-- Stable insertion (descending by count) used to model Python
sorted(..., key=lambda x: x[1], reverse=True), which is a stable sort: walk
past records with strictly greater count, and insert before the first record
whose count is not greater, so that records already placed (earlier in input)
with an equal count stay in front. -/
def insertDesc (x : AggRecord) : List AggRecord → List AggRecord
  | [] => [x]
  | y :: ys => if x.count < y.count then y :: insertDesc x ys else x :: y :: ys

/-- Stable descending sort by occurrence count (insertion sort over the list
from the right, which is extensionally the unique stable descending sort). -/
def sortDesc (l : List AggRecord) : List AggRecord := l.foldr insertDesc []

/-- The ranked table written by classify_and_save_errors: the aggregate in
first-encounter order, stably sorted by occurrence count descending. -/
def classify_rows (rows : List (Str × Str)) : List AggRecord :=
  sortDesc (aggregate_rows rows)

/-- The end-to-end pipeline for one batch of fetched events: exclusion,
line cleaning, anonymization (process_log_events), then classification and
ranking (classify_and_save_errors reading the saved rows). -/
def pipeline (events : List (Str × Str)) : List AggRecord :=
  classify_rows (process_log_events events)


/- ## Definitions for the claims -/

set_option maxRecDepth 1000000

/-- The claim's reading of "begins like a stack-trace line": the text starts
with "at " followed by a dotted (nonempty, dot-containing) path token. -/
def startsLikeStackTrace (s : Str) : Bool :=
  match lit ("at ".data) s with
  | some rest =>
    let tok := (runMany (fun c => !isPySpace c) rest).1
    !tok.isEmpty && tok.any (fun c => c == '.')
  | none => false

/-- The claim's hypothesis "already normalized: only placeholder tokens and
ordinary text, with single-space-collapsed whitespace", formalized: the string
is a single-space-separated sequence of nonempty space-free tokens, and no
occurrence of any dynamic-content pattern of the normalizers is present. -/
def NormalizedShape (s : Str) : Prop :=
  (∃ ws : List Str, (∀ w ∈ ws, w ≠ [] ∧ ∀ c ∈ w, isPySpace c = false) ∧
      s = List.intercalate [' '] ws) ∧
  reHasMatch uuidRule s = false ∧
  reHasMatch hex16Rule s = false ∧
  reHasMatch hex12Rule s = false ∧
  reHasMatch timestampRule s = false ∧
  reHasMatch timeRule s = false ∧
  reHasMatch quotedIdRule s = false ∧
  reHasMatch tenantRule s = false ∧
  reHasMatch (wrapperRule ("BaseSCRRequest".data)) s = false ∧
  reHasMatch (wrapperRule ("RequestedChanges".data)) s = false ∧
  reHasMatch (wrapperRule ("ActivityChange".data)) s = false ∧
  reHasMatch (bracketRule 50) s = false ∧
  reHasMatch numRule s = false

/-- The occurrences of a signature among the classified rows: the rows with a
nonempty message whose extracted signature is the given one, in input
order. -/
def occurrences (rows : List (Str × Str)) (s : Str) : List (Str × Str) :=
  rows.filter fun p => !p.2.isEmpty && ((extract_error_signature p.2).2.2 == s)

/-- First raw message of the C1 counterexample: it contains the bare 5-digit
id 12345, the UUID 11ef8709-70d4-4670-b102-0242ac110002 and the timestamp
2025-08-24T10:00:00Z. -/
def c1_msg1 : Str :=
  ("ERROR 12345 [w] 11ef8709-70d4-4670-b102-0242ac110002 2025-08-24T10:00:00Z boom\nFooException: \x7b\x7d\nat com.x").data

/-- Second raw message of the C1 counterexample: identical to the first
except for the bare 5-digit id (67890), the UUID
(22ab8709-70d4-4670-b102-0242ac110002) and the timestamp
(2025-08-24T11:00:00Z). -/
def c1_msg2 : Str :=
  ("ERROR 67890 [w] 22ab8709-70d4-4670-b102-0242ac110002 2025-08-24T11:00:00Z boom\nFooException: \x7b\x7d\nat com.x").data

/-- The two-event input of the C1 counterexample. -/
def c1_events : List (Str × Str) := [(("t1".data), c1_msg1), (("t2".data), c1_msg2)]

/-- Two-event input for the amended C1: the two raw messages are identical
except for the UUID, the ISO timestamp and the bare 5-digit id, and all three
dynamic tokens sit in the free-text message, which enters the signature only
through the normalizer. -/
def c1_amended_events : List (Str × Str) :=
  [(("t1".data),
    ("ERROR com.acme.Handler [w] request 11ef8709-70d4-4670-b102-0242ac110002 failed at 2025-08-24T10:00:00Z code 12345").data),
   (("t2".data),
    ("ERROR com.acme.Handler [w] request 22ab8709-70d4-4670-b102-0242ac110002 failed at 2025-08-24T11:00:00Z code 67890").data)]

/-- Message of the C2 counterexample: its exception message normalizes to
`at net.alpha.Beta boom`, which begins like a stack-trace line. -/
def c2_cex_msg : Str := ("ERROR com.foo.Bar] oops\nFooException: at net.alpha.Beta boom").data

/-- Witness message for the amended C2: its exception message is the
structural placeholder braces. -/
def c2_wit_msg : Str := ("ERROR com.foo.Bar] oops\nFooException: \x7b\x7d").data

/-- The two-event input of the C4 end-to-end scenario, exactly as in the
spec. -/
def c4_events : List (Str × Str) :=
  [(("t1".data), ("ERROR com.acme.Foo] Bad id=12345 tenant=[acme_corp123]").data),
   (("t2".data), ("ERROR com.acme.Foo] Bad id=67890 tenant=[acme_corp456]").data)]

/-- Nine-event input for the ranking instance of C6: three distinct
signatures, first seen in the order Alpha, Beta, Gamma, with final counts
5, 1 and 3. -/
def c6_rows : List (Str × Str) :=
  [(("a1".data), ("AlphaException: boom alpha").data),
   (("a2".data), ("AlphaException: boom alpha").data),
   (("b1".data), ("BetaException: boom beta").data),
   (("a3".data), ("AlphaException: boom alpha").data),
   (("a4".data), ("AlphaException: boom alpha").data),
   (("a5".data), ("AlphaException: boom alpha").data),
   (("c1".data), ("GammaException: boom gamma").data),
   (("c2".data), ("GammaException: boom gamma").data),
   (("c3".data), ("GammaException: boom gamma").data)]

/-- Two-event input for the C7 witness: two raw messages with the same
signature (their numeric ids normalize to [NUM]) but different raw text. -/
def c7_wit_events : List (Str × Str) :=
  [(("t1".data), ("AlphaException: boom 111").data),
   (("t2".data), ("AlphaException: boom 222").data)]

/-- Two-row input for the C10 witness: both rows carry the signature
`FooException: boom`, but their stack frames give different locations
(B.run, then C.stop). -/
def c10_wit_rows : List (Str × Str) :=
  [(("t1".data), ("FooException: boom\nat com.nice.saas.wfo.a.B.run(x)").data),
   (("t2".data), ("FooException: boom\nat com.nice.saas.wfo.a.C.stop(x)").data)]

/-- The already-normalized string used as the C9 witness. -/
def c9_wit : Str := ("Failed [UUID] for [TENANT] at [TIMESTAMP]").data

/-- The record produced by the classification loop on `c7_wit_events`: the
sample is the first message, in full. -/
def c7_wit_rec : AggRecord :=
  ⟨("AlphaException: boom [NUM]").data, 2, ("AlphaException: boom 111").data,
   [("t1".data), ("t2".data)], ("AlphaException").data, ("Unknown").data⟩

/-- The record produced by the classification loop on `c10_wit_rows`: the
location comes from the last occurrence (C.stop), while the sample stays the
first message. -/
def c10_wit_rec : AggRecord :=
  ⟨("FooException: boom").data, 2,
   ("FooException: boom\nat com.nice.saas.wfo.a.B.run(x)").data,
   [("t1".data), ("t2".data)], ("FooException").data, ("C.stop").data⟩

/-- The update applied to the matching record when a known signature
recurs. -/
def bumpRec (p : Str × Str) (r : AggRecord) : AggRecord :=
  if r.signature == (extract_error_signature p.2).2.2 then
    { r with
      count := r.count + 1
      timestamps := r.timestamps ++ [p.1]
      error_type := (extract_error_signature p.2).1
      location := (extract_error_signature p.2).2.1 }
  else r

/-- Per-record invariant of the classification loop: the sample is the
message of the first occurrence of the record's signature among the rows, and
the stored type and location are those extracted from the last occurrence. -/
def RecordInv (rows : List (Str × Str)) (r : AggRecord) : Prop :=
  (occurrences rows r.signature).head?.map (fun p => p.2) = some r.sample_message ∧
  (occurrences rows r.signature).getLast?.map
      (fun p => ((extract_error_signature p.2).1, (extract_error_signature p.2).2.1)) =
    some (r.error_type, r.location)

/-- Loop invariant of classify_and_save_errors: every accumulated record
satisfies the per-record invariant, and a signature has a record exactly when
it occurs among the rows. -/
def AggInv (rows : List (Str × Str)) : Prop :=
  (∀ r ∈ aggregate_rows rows, RecordInv rows r) ∧
  (∀ s : Str, (∃ r ∈ aggregate_rows rows, r.signature = s) ↔ occurrences rows s ≠ [])

/- ## Engine lemmas -/

/-- When a rule matches nowhere (from the given left context), one re.sub
pass is the identity, whatever the fuel. -/
theorem reSubGo_of_no_match (r : SubRule) :
    ∀ (l : Str) (prev : Option Char) (fuel : Nat),
      reHasMatchFrom r prev l = false → reSubGo r fuel prev l = l := by
  intro l
  induction l with
  | nil => intro prev fuel _; cases fuel <;> rfl
  | cons c rest ih =>
    intro prev fuel h
    rw [reHasMatchFrom] at h
    rcases Bool.or_eq_false_iff.mp h with ⟨h1, h2⟩
    have hnone : r prev (c :: rest) = none := Option.not_isSome_iff_eq_none.mp (by simp [h1])
    cases fuel with
    | zero => rfl
    | succ n =>
      rw [reSubGo, hnone]
      exact congrArg (c :: ·) (ih (some c) n h2)

/-- When a rule matches nowhere in a string, re.sub leaves it unchanged. -/
theorem reSub_of_no_match (r : SubRule) (s : Str) (h : reHasMatch r s = false) :
    reSub r s = s :=
  reSubGo_of_no_match r s none s.length h

/-- Unfolding of intercalate on a list of at least two pieces. -/
theorem intercalate_cons_cons (sep a b : Str) (l : List Str) :
    List.intercalate sep (a :: b :: l) = a ++ sep ++ List.intercalate sep (b :: l) := by
  simp [List.intercalate]

/-- Scanning a space-free word accumulates it unchanged. -/
theorem pySplitGo_word (w : Str) (hw : ∀ c ∈ w, isPySpace c = false) :
    ∀ acc t, pySplitGo acc (w ++ t) = pySplitGo (w.reverse ++ acc) t := by
  induction w with
  | nil => intro acc t; simp
  | cons c w' ih =>
    intro acc t
    have hc : isPySpace c = false := hw c (List.mem_cons_self c w')
    have hw' : ∀ d ∈ w', isPySpace d = false := fun d hd => hw d (List.mem_cons_of_mem c hd)
    rw [List.cons_append, pySplitGo, hc]
    simp only [Bool.false_eq_true, if_false]
    rw [ih hw' (c :: acc) t]
    simp

/-- Python split is a left inverse of joining nonempty space-free words with
single spaces. -/
theorem pySplit_intercalate :
    ∀ ws : List Str, (∀ w ∈ ws, w ≠ [] ∧ ∀ c ∈ w, isPySpace c = false) →
      pySplit (List.intercalate [' '] ws) = ws := by
  intro ws
  induction ws with
  | nil => intro _; rfl
  | cons w ws' ih =>
    intro h
    have hw := h w (List.mem_cons_self w ws')
    have hws' : ∀ x ∈ ws', x ≠ [] ∧ ∀ c ∈ x, isPySpace c = false :=
      fun x hx => h x (List.mem_cons_of_mem w hx)
    cases ws' with
    | nil =>
      have hint : List.intercalate [' '] [w] = w := by simp [List.intercalate]
      rw [hint]
      show pySplitGo [] w = [w]
      have hword := pySplitGo_word w hw.2 [] []
      rw [List.append_nil] at hword
      rw [hword, List.append_nil, pySplitGo]
      have hne : w.reverse.isEmpty = false := by
        cases hr : w.reverse with
        | nil => exact absurd (List.reverse_eq_nil_iff.mp hr) hw.1
        | cons a l => rfl
      rw [hne]
      simp
    | cons w2 ws2 =>
      rw [intercalate_cons_cons]
      rw [List.append_assoc]
      show pySplitGo [] (w ++ (' ' :: List.intercalate [' '] (w2 :: ws2))) = w :: w2 :: ws2
      rw [pySplitGo_word w hw.2 [] _, List.append_nil, pySplitGo]
      have hsp : isPySpace ' ' = true := rfl
      rw [hsp]
      have hne : w.reverse.isEmpty = false := by
        cases hr : w.reverse with
        | nil => exact absurd (List.reverse_eq_nil_iff.mp hr) hw.1
        | cons a l => rfl
      rw [hne]
      rw [if_neg Bool.false_ne_true, List.reverse_reverse]
      exact congrArg (w :: ·) (ih hws')

/- ## C1: dedup across UUID, timestamp and 5-digit id differences -/

/-- Claim C1, counterexample.  The two raw messages `c1_msg1` and `c1_msg2`
are identical except that each contains a different UUID, a different
ISO-8601 timestamp and a different bare 5-digit numeric id; the claim demands
exactly one AggregateRecord with occurrence_count 2, but the pipeline
produces two records with occurrence_count 1 each: the 5-digit id is the
token after the ERROR marker, which the signature extractor copies into the
signature unnormalized (as the logger name of the generic-message fallback),
so the two signatures differ. -/
theorem c1_counterexample :
    (pipeline c1_events).map (fun r => (r.signature, r.count)) =
      [((("FooException | 12345 | [UUID] [TIMESTAMP] boom").data), 1),
       ((("FooException | 67890 | [UUID] [TIMESTAMP] boom").data), 1)] ∧
    (pipeline c1_events).length ≠ 1 := by
  constructor
  · decide
  · decide

/-- Claim C1 as amended: for two raw log messages that are identical except
for a different UUID, a different ISO-8601 timestamp and a different bare
5-digit numeric id, where the differing tokens occur in positions that reach
the signature only through the normalizer (the free-text message, not the
logger/class token that the extractor copies verbatim) — as in the two-event
sequence `c1_amended_events` — the aggregation pipeline produces exactly one
AggregateRecord with occurrence_count 2. -/
theorem c1_amended :
    pipeline c1_amended_events =
      [{ signature := ("ERROR in Handler: request [UUID] failed at [TIMESTAMP] code [NUM]").data
         count := 2
         sample_message :=
           ("ERROR com.acme.Handler [w] request 11ef8709-70d4-4670-b102-0242ac110002 failed at 2025-08-24T10:00:00Z code 12345").data
         timestamps := [("t1".data), ("t2".data)]
         error_type := ("ERROR").data
         location := ("Handler").data }] := by
  decide

/- ## C2: the generic-message fallback -/

/-- Claim C2, counterexample.  The exception pattern matches `c2_cex_msg` and
the normalized exception message `at net.alpha.Beta boom` begins like a
stack-trace line ("at " followed by a dotted path), so the claim demands the
" | "-join signature; but the code only treats messages starting with
"at com." or "at org." as generic, so it returns the plain colon signature
instead of the join of the type, the logger `Bar]` and the normalized first
line `oops`. -/
theorem c2_counterexample :
    find_exception c2_cex_msg = some (("FooException").data, ("at net.alpha.Beta boom").data) ∧
    startsLikeStackTrace (normalize_error_message (pyStrip (("at net.alpha.Beta boom").data))) = true ∧
    extract_error_signature c2_cex_msg =
      (("FooException").data, ("Unknown").data, ("FooException: at net.alpha.Beta boom").data) ∧
    ("FooException: at net.alpha.Beta boom").data ≠
      List.intercalate (" | ".data) [("FooException").data, ("Bar]").data, ("oops").data] := by
  exact ⟨by decide, by decide, by decide, by decide⟩

/-- Claim C2 as amended: for every raw message in which the exception pattern
matches and the normalized exception message is empty, the placeholder braces,
or begins with "at com." or "at org." (the code's stack-trace prefixes, in
place of the claim's arbitrary dotted path), the signature is the " | "-join
of the exception type (the last dotted segment of the matched identifier),
the logger name from the first ERROR-marked line when present and nonempty,
and the extra-stripped normalization of that line's trailing free text when
nonempty. -/
theorem c2_generic_fallback (m ty msg : Str)
    (hne : pyStrip m ≠ [])
    (hfind : find_exception m = some (ty, msg))
    (hgen : normalize_error_message (pyStrip msg) = [] ∨
            normalize_error_message (pyStrip msg) = [LB, RB] ∨
            ("at com.".data).isPrefixOf (normalize_error_message (pyStrip msg)) = true ∨
            ("at org.".data).isPrefixOf (normalize_error_message (pyStrip msg)) = true) :
    extract_error_signature m =
      (lastDotSeg ty, extract_error_location m,
        List.intercalate (" | ".data)
          ([lastDotSeg ty]
            ++ (match find_error_logger m with
                | some g => if (lastDotSeg g).isEmpty then [] else [lastDotSeg g]
                | none => [])
            ++ (match find_first_error_line m with
                | some g =>
                  if (normalize_error_message (normalize_first_error_line (pyStrip g))).isEmpty then []
                  else [normalize_error_message (normalize_first_error_line (pyStrip g))]
                | none => []))) := by
  have hm : m.isEmpty = false := by
    cases m with
    | nil => exact absurd rfl hne
    | cons a l => rfl
  have hs : (pyStrip m).isEmpty = false := by
    cases h : pyStrip m with
    | nil => exact absurd h hne
    | cons a l => rfl
  have hgenB : isGenericNorm (normalize_error_message (pyStrip msg)) = true := by
    rcases hgen with h | h | h | h <;> simp [isGenericNorm, h]
  unfold extract_error_signature
  rw [hm, hs, hfind]
  simp only [Bool.or_self, Bool.false_or, if_neg, Bool.false_eq_true, not_false_iff, ite_false]
  rw [hgenB]
  simp only [if_true]
  cases hlog : find_error_logger m <;> cases hfel : find_first_error_line m <;>
    simp [show normalize_error_message (normalize_first_error_line []) = [] from rfl]

/-- Witness for the amended C2 at the concrete message `c2_wit_msg`: the
hypotheses hold there and the conclusion evaluates to the join signature
`FooException | Bar] | oops`. -/
theorem c2_generic_fallback_witness :
    (pyStrip c2_wit_msg ≠ [] ∧
     find_exception c2_wit_msg = some (("FooException").data, ("\x7b\x7d").data) ∧
     normalize_error_message (pyStrip (("\x7b\x7d").data)) = [LB, RB]) ∧
    extract_error_signature c2_wit_msg =
      (("FooException").data, ("Unknown").data, ("FooException | Bar] | oops").data) := by
  refine ⟨⟨by decide, by decide, by decide⟩, ?_⟩
  have h := c2_generic_fallback c2_wit_msg (("FooException").data) (("\x7b\x7d").data)
    (by decide) (by decide) (Or.inr (Or.inl (by decide)))
  rw [h]
  decide

/- ## C3: idempotence of the anonymizer -/

/-- Claim C3 (a code bug): the anonymizer is not idempotent.  On the failing
input [user: bob] the first application produces [user:[USER_REDACTED]], but
the second application matches the bracketed user construct again — its value
class [^\]]+ stops at the first closing bracket — and rewrites it to
[user:[USER_REDACTED]]], appending a stray bracket, exactly the
double-bracketing the spec forbids. -/
theorem c3_not_idempotent :
    anonymize_log_message (("[user: bob]").data) = ("[user:[USER_REDACTED]]").data ∧
    anonymize_log_message (("[user:[USER_REDACTED]]").data) = ("[user:[USER_REDACTED]]]").data ∧
    anonymize_log_message (anonymize_log_message (("[user: bob]").data)) ≠
      anonymize_log_message (("[user: bob]").data) := by
  refine ⟨by decide, by decide, ?_⟩
  decide

/- ## C4: the end-to-end scenario -/

/-- Claim C4, counterexample.  On the spec's two-event input the pipeline
does produce exactly one AggregateRecord with occurrence_count 2, but its
location is Unknown and its error_type is Unknown, not Foo and ERROR as
claimed: after anonymization the message reads
`ERROR com.acme.Foo] Bad id=12345 tenant=[TENANT_REDACTED]`, and the severity
pattern `ERROR\s+(\S+)\s+.*?\]\s+(.+?)` cannot match it (the greedy `\S+`
swallows `com.acme.Foo]` and no later `]` is followed by whitespace), so the
extractor falls through to the generic first-line fallback. -/
theorem c4_counterexample :
    (pipeline c4_events).map (fun r => (r.count, r.location, r.error_type)) =
      [(2, ("Unknown").data, ("Unknown").data)] ∧
    (("Unknown").data ≠ ("Foo").data ∧ ("Unknown").data ≠ ("ERROR").data) := by
  exact ⟨by decide, by decide, by decide⟩

/-- Claim C4 as amended: on the two-event input the pipeline yields exactly
one AggregateRecord with occurrence_count 2, whose location and error_type
are both Unknown (the severity-marker pattern fails because the bracket ends
the logger token with no whitespace before it, so the first-line fallback
builds the signature), and whose signature and sample show the normalized and
anonymized first line. -/
theorem c4_amended :
    pipeline c4_events =
      [{ signature := ("ERROR com.acme.Foo] Bad id=[NUM] tenant=[TENANT_REDACTED]").data
         count := 2
         sample_message := ("ERROR com.acme.Foo] Bad id=12345 tenant=[TENANT_REDACTED]").data
         timestamps := [("t1".data), ("t2".data)]
         error_type := ("Unknown").data
         location := ("Unknown").data }] := by
  decide

/- ## C5: 16-or-more hex digit tokens -/

/-- Claim C5, counterexample.  The pipeline normalizer _normalize_error_message
uses the fixed repetition \b[0-9a-f]{16}\b, so a maximal word-bounded token of
17 lowercase hex characters is left unchanged (no word boundary after 16
characters, and starting later loses the leading boundary): the claim demands
that every token of 16 or more hex characters become [HEX-ID]. -/
theorem c5_counterexample :
    normalize_error_message (("a 22f8ddccbde6b48f0 b").data) = ("a 22f8ddccbde6b48f0 b").data ∧
    containsSub (("[HEX-ID]").data) (normalize_error_message (("a 22f8ddccbde6b48f0 b").data)) = false := by
  exact ⟨by decide, by decide⟩

/-- Claim C5 as amended: the pipeline normalizer replaces a maximal
word-bounded token of exactly 16 lowercase hex characters with [HEX-ID] but
leaves a 17-character hex token unchanged; the standalone classifier's
normalizer (classify_errors.py), which has the additional \b[0-9a-f]{12,}\b
rule, also replaces the 17-character token. -/
theorem c5_amended :
    normalize_error_message (("a 22f8ddccbde6b48f b").data) = ("a [HEX-ID] b").data ∧
    normalize_error_message (("a 22f8ddccbde6b48f0 b").data) = ("a 22f8ddccbde6b48f0 b").data ∧
    cls_normalize_error_message (("a 22f8ddccbde6b48f0 b").data) = ("a [HEX-ID] b").data := by
  exact ⟨by decide, by decide, by decide⟩

/- ## C8: empty-input handling -/

/-- Claim C8: on empty input every core operation returns its neutral result:
the normalizer returns the empty string, the signature extractor returns
(Unknown, Unknown, Empty log message), the anonymizer returns the empty
string, and aggregating the empty event sequence returns the empty ranked
table. -/
theorem c8_empty_inputs :
    normalize_error_message [] = [] ∧
    extract_error_signature [] = (("Unknown").data, ("Unknown").data, ("Empty log message").data) ∧
    anonymize_log_message [] = [] ∧
    pipeline [] = [] := by
  exact ⟨rfl, by decide, rfl, rfl⟩

/- ## C9: the normalizer fixes already-normalized strings -/

/-- Claim C9: both normalizers are the identity on every already-normalized
string (a string of placeholder tokens and ordinary text with
single-space-collapsed whitespace in which no dynamic-content pattern
occurs). -/
theorem c9_normalizer_fixed_point (s : Str) (h : NormalizedShape s) :
    normalize_error_message s = s ∧ cls_normalize_error_message s = s := by
  obtain ⟨⟨ws, hws, hseq⟩, h1, h2, h3, h4, h5, h6, h7, h8, h9, h10, h11, h12⟩ := h
  have hsplit : List.intercalate [' '] (pySplit s) = s := by
    rw [hseq, pySplit_intercalate ws hws]
  constructor
  · unfold normalize_error_message
    dsimp only
    rw [reSub_of_no_match _ _ h1, reSub_of_no_match _ _ h2, reSub_of_no_match _ _ h4,
      reSub_of_no_match _ _ h5, reSub_of_no_match _ _ h6, reSub_of_no_match _ _ h7,
      reSub_of_no_match _ _ h8, reSub_of_no_match _ _ h9, reSub_of_no_match _ _ h10,
      reSub_of_no_match _ _ h11, reSub_of_no_match _ _ h12]
    exact hsplit
  · unfold cls_normalize_error_message
    dsimp only
    rw [reSub_of_no_match _ _ h1, reSub_of_no_match _ _ h2, reSub_of_no_match _ _ h3,
      reSub_of_no_match _ _ h4, reSub_of_no_match _ _ h5, reSub_of_no_match _ _ h6,
      reSub_of_no_match _ _ h7, reSub_of_no_match _ _ h8, reSub_of_no_match _ _ h9,
      reSub_of_no_match _ _ h10, reSub_of_no_match _ _ h11, reSub_of_no_match _ _ h12]
    exact hsplit

/-- Witness for C9 at the already-normalized string `c9_wit`: the shape
hypothesis holds and both normalizers leave the string unchanged. -/
theorem c9_normalizer_fixed_point_witness :
    NormalizedShape c9_wit ∧
    (normalize_error_message c9_wit = c9_wit ∧ cls_normalize_error_message c9_wit = c9_wit) := by
  have hshape : NormalizedShape c9_wit := by
    refine ⟨⟨[("Failed".data), ("[UUID]".data), ("for".data), ("[TENANT]".data),
      ("at".data), ("[TIMESTAMP]".data)], by decide, by decide⟩,
      by decide, by decide, by decide, by decide, by decide, by decide, by decide,
      by decide, by decide, by decide, by decide, by decide⟩
  exact ⟨hshape, c9_normalizer_fixed_point c9_wit hshape⟩

/- ## Ranking and aggregation lemmas -/

theorem mem_insertDesc (z x : AggRecord) : ∀ l, z ∈ insertDesc x l ↔ z = x ∨ z ∈ l := by
  intro l
  induction l with
  | nil => simp [insertDesc]
  | cons y ys ih =>
    rw [insertDesc]
    by_cases h : x.count < y.count
    · rw [if_pos h]
      simp only [List.mem_cons, ih]
      tauto
    · rw [if_neg h]
      simp only [List.mem_cons]

theorem pairwise_insertDesc (x : AggRecord) :
    ∀ l, List.Pairwise (fun a b => b.count ≤ a.count) l →
      List.Pairwise (fun a b => b.count ≤ a.count) (insertDesc x l) := by
  intro l
  induction l with
  | nil => intro _; simp [insertDesc]
  | cons y ys ih =>
    intro h
    rw [List.pairwise_cons] at h
    rw [insertDesc]
    by_cases hc : x.count < y.count
    · rw [if_pos hc]
      rw [List.pairwise_cons]
      constructor
      · intro z hz
        rcases (mem_insertDesc z x ys).mp hz with rfl | hz'
        · exact Nat.le_of_lt hc
        · exact h.1 z hz'
      · exact ih h.2
    · rw [if_neg hc]
      rw [List.pairwise_cons]
      constructor
      · intro z hz
        rcases List.mem_cons.mp hz with rfl | hz'
        · exact Nat.le_of_not_lt hc
        · exact Nat.le_trans (h.1 z hz') (Nat.le_of_not_lt hc)
      · exact List.pairwise_cons.mpr h

theorem pairwise_sortDesc (l : List AggRecord) :
    List.Pairwise (fun a b => b.count ≤ a.count) (sortDesc l) := by
  induction l with
  | nil => simp [sortDesc]
  | cons a l ih => exact pairwise_insertDesc a (sortDesc l) ih

theorem filter_insertDesc_ne (x : AggRecord) (c : Nat) (h : (x.count == c) = false) :
    ∀ l, (insertDesc x l).filter (fun r => r.count == c) = l.filter (fun r => r.count == c) := by
  intro l
  induction l with
  | nil => simp [insertDesc, List.filter, h]
  | cons y ys ih =>
    rw [insertDesc]
    by_cases hc : x.count < y.count
    · rw [if_pos hc]
      rw [List.filter_cons, List.filter_cons]
      cases (y.count == c) <;> simp [ih]
    · rw [if_neg hc]
      rw [List.filter_cons, h]
      simp

theorem filter_insertDesc_eq (x : AggRecord) (c : Nat) (h : (x.count == c) = true) :
    ∀ l, List.Pairwise (fun a b => b.count ≤ a.count) l →
      (insertDesc x l).filter (fun r => r.count == c) =
        x :: l.filter (fun r => r.count == c) := by
  intro l
  induction l with
  | nil => simp [insertDesc, List.filter, h]
  | cons y ys ih =>
    intro hp
    rw [List.pairwise_cons] at hp
    rw [insertDesc]
    by_cases hc : x.count < y.count
    · rw [if_pos hc]
      have hxc : x.count = c := eq_of_beq h
      have hy : (y.count == c) = false := by
        apply beq_eq_false_iff_ne.mpr
        omega
      rw [List.filter_cons, hy]
      simp only [Bool.false_eq_true, if_false]
      rw [ih hp.2]
      rw [List.filter_cons, hy]
      simp
    · rw [if_neg hc]
      rw [List.filter_cons, h]
      simp

theorem filter_sortDesc (l : List AggRecord) (c : Nat) :
    (sortDesc l).filter (fun r => r.count == c) = l.filter (fun r => r.count == c) := by
  induction l with
  | nil => rfl
  | cons a l ih =>
    show (insertDesc a (sortDesc l)).filter (fun r => r.count == c) = _
    by_cases ha : (a.count == c) = true
    · rw [filter_insertDesc_eq a c ha (sortDesc l) (pairwise_sortDesc l), ih,
        List.filter_cons, ha]
      simp
    · have ha' : (a.count == c) = false := Bool.eq_false_iff.mpr ha
      rw [filter_insertDesc_ne a c ha' (sortDesc l), ih, List.filter_cons, ha']
      simp
theorem occurrences_append (rows : List (Str × Str)) (p : Str × Str) (s : Str) :
    occurrences (rows ++ [p]) s =
      occurrences rows s ++
        (if !p.2.isEmpty && ((extract_error_signature p.2).2.2 == s) then [p] else []) := by
  simp [occurrences, List.filter_append, List.filter_cons]

theorem aggregate_rows_append (rows : List (Str × Str)) (p : Str × Str) :
    aggregate_rows (rows ++ [p]) = aggStep (aggregate_rows rows) p := by
  simp [aggregate_rows, List.foldl_append]

theorem aggStep_empty (recs : List AggRecord) (p : Str × Str) (h : p.2.isEmpty = true) :
    aggStep recs p = recs := by
  unfold aggStep
  rw [h]
  simp

theorem aggStep_existing (recs : List AggRecord) (p : Str × Str)
    (h : p.2.isEmpty = false)
    (hany : recs.any (fun r => r.signature == (extract_error_signature p.2).2.2) = true) :
    aggStep recs p = recs.map (bumpRec p) := by
  unfold aggStep bumpRec
  rw [h]
  simp only [Bool.false_eq_true, if_false]
  rw [if_pos hany]

theorem aggStep_fresh (recs : List AggRecord) (p : Str × Str)
    (h : p.2.isEmpty = false)
    (hany : recs.any (fun r => r.signature == (extract_error_signature p.2).2.2) = false) :
    aggStep recs p =
      recs ++ [⟨(extract_error_signature p.2).2.2, 1, p.2, [p.1],
        (extract_error_signature p.2).1, (extract_error_signature p.2).2.1⟩] := by
  unfold aggStep
  rw [h]
  simp only [Bool.false_eq_true, if_false]
  rw [hany]
  simp

theorem agg_inv (rows : List (Str × Str)) : AggInv rows := by
  induction rows using List.reverseRecOn with
  | nil =>
    constructor
    · intro r hr
      simp [aggregate_rows] at hr
    · intro s
      constructor
      · rintro ⟨r, hr, _⟩
        simp [aggregate_rows] at hr
      · intro h
        exact absurd rfl h
  | append_singleton rs p ih =>
    by_cases hemp : p.2.isEmpty = true
    · -- the row is skipped and the occurrence lists do not change
      have hstep : aggregate_rows (rs ++ [p]) = aggregate_rows rs := by
        rw [aggregate_rows_append, aggStep_empty _ _ hemp]
      have hocc : ∀ s, occurrences (rs ++ [p]) s = occurrences rs s := by
        intro s
        rw [occurrences_append, hemp]
        simp
      constructor
      · intro r hr
        rw [hstep] at hr
        have hold := ih.1 r hr
        unfold RecordInv at hold ⊢
        rw [hocc]
        exact hold
      · intro s
        rw [hstep, hocc]
        exact ih.2 s
    · have hempF : p.2.isEmpty = false := Bool.eq_false_iff.mpr hemp
      have hocc : ∀ s, occurrences (rs ++ [p]) s =
          occurrences rs s ++
            (if (extract_error_signature p.2).2.2 = s then [p] else []) := by
        intro s
        rw [occurrences_append, hempF]
        by_cases hs : (extract_error_signature p.2).2.2 = s
        · rw [if_pos hs]
          simp [hs]
        · rw [if_neg hs]
          have hb : ((extract_error_signature p.2).2.2 == s) = false :=
            beq_eq_false_iff_ne.mpr hs
          simp [hb]
      have hoccNe : ∀ s, (extract_error_signature p.2).2.2 ≠ s →
          occurrences (rs ++ [p]) s = occurrences rs s := by
        intro s hs
        rw [hocc s, if_neg hs]
        simp
      have hoccEq : occurrences (rs ++ [p]) (extract_error_signature p.2).2.2 =
          occurrences rs (extract_error_signature p.2).2.2 ++ [p] := by
        rw [hocc _, if_pos rfl]
      by_cases hany :
          (aggregate_rows rs).any
            (fun r => r.signature == (extract_error_signature p.2).2.2) = true
      · -- an existing record is updated
        have hstep : aggregate_rows (rs ++ [p]) = (aggregate_rows rs).map (bumpRec p) := by
          rw [aggregate_rows_append, aggStep_existing _ _ hempF hany]
        constructor
        · intro r' hr'
          rw [hstep] at hr'
          obtain ⟨r, hr, hup⟩ := List.mem_map.mp hr'
          have hold := ih.1 r hr
          by_cases hsig : r.signature = (extract_error_signature p.2).2.2
          · -- the bumped record: sample stays, type and location become the new ones
            have hbump : r' = { r with
                count := r.count + 1
                timestamps := r.timestamps ++ [p.1]
                error_type := (extract_error_signature p.2).1
                location := (extract_error_signature p.2).2.1 } := by
              rw [← hup]
              unfold bumpRec
              rw [if_pos (beq_iff_eq.mpr hsig)]
            have hne : occurrences rs r.signature ≠ [] := by
              intro hnil
              have hh := hold.1
              rw [hnil] at hh
              simp at hh
            unfold RecordInv at hold ⊢
            rw [hbump]
            dsimp only
            rw [hsig] at hne
            constructor
            · rw [hsig, hoccEq, List.head?_append_of_ne_nil _ hne, ← hsig]
              exact hold.1
            · rw [hsig, hoccEq, List.getLast?_concat]
              rfl
          · -- an untouched record
            have hid : r' = r := by
              rw [← hup]
              unfold bumpRec
              rw [if_neg (by simp [beq_iff_eq, hsig])]
            subst hid
            unfold RecordInv
            rw [hoccNe _ (fun h => hsig h.symm)]
            exact hold
        · intro s
          rw [hstep]
          by_cases hs : (extract_error_signature p.2).2.2 = s
          · subst hs
            constructor
            · intro _
              rw [hoccEq]
              simp
            · intro _
              obtain ⟨r, hr, hrb⟩ := List.any_eq_true.mp hany
              have hrs : r.signature = (extract_error_signature p.2).2.2 := beq_iff_eq.mp hrb
              refine ⟨bumpRec p r, List.mem_map.mpr ⟨r, hr, rfl⟩, ?_⟩
              unfold bumpRec
              rw [if_pos hrb]
              exact hrs
          · rw [hoccNe s hs]
            rw [← ih.2 s]
            constructor
            · rintro ⟨r', hr', rfl⟩
              obtain ⟨r, hr, hup⟩ := List.mem_map.mp hr'
              refine ⟨r, hr, ?_⟩
              rw [← hup]
              unfold bumpRec
              by_cases hb : r.signature == (extract_error_signature p.2).2.2
              · rw [if_pos hb]
              · rw [if_neg (by simp [hb])]
            · rintro ⟨r, hr, rfl⟩
              refine ⟨bumpRec p r, List.mem_map.mpr ⟨r, hr, rfl⟩, ?_⟩
              unfold bumpRec
              by_cases hb : r.signature == (extract_error_signature p.2).2.2
              · rw [if_pos hb]
              · rw [if_neg (by simp [hb])]
      · -- a fresh record is appended
        have hanyF :
            (aggregate_rows rs).any
              (fun r => r.signature == (extract_error_signature p.2).2.2) = false :=
          Bool.eq_false_iff.mpr hany
        have hstep := aggStep_fresh (aggregate_rows rs) p hempF hanyF
        rw [← aggregate_rows_append] at hstep
        have hnotin : ∀ r ∈ aggregate_rows rs, r.signature ≠ (extract_error_signature p.2).2.2 := by
          intro r hr hcontra
          have : (aggregate_rows rs).any
              (fun r => r.signature == (extract_error_signature p.2).2.2) = true := by
            rw [List.any_eq_true]
            exact ⟨r, hr, beq_iff_eq.mpr hcontra⟩
          rw [this] at hanyF
          cases hanyF
        have hoccnil : occurrences rs (extract_error_signature p.2).2.2 = [] := by
          by_contra hnil
          obtain ⟨r, hr, hrs⟩ := (ih.2 _).mpr hnil
          exact hnotin r hr hrs
        constructor
        · intro r' hr'
          rw [hstep] at hr'
          rcases List.mem_append.mp hr' with hold | hnew
          · have holdinv := ih.1 r' hold
            unfold RecordInv
            rw [hoccNe _ (fun h => hnotin r' hold h.symm)]
            exact holdinv
          · have : r' = ⟨(extract_error_signature p.2).2.2, 1, p.2, [p.1],
                (extract_error_signature p.2).1, (extract_error_signature p.2).2.1⟩ := by
              simpa using hnew
            subst this
            unfold RecordInv
            simp only
            rw [hoccEq, hoccnil, List.nil_append]
            constructor <;> rfl
        · intro s
          rw [hstep]
          by_cases hs : (extract_error_signature p.2).2.2 = s
          · subst hs
            constructor
            · intro _
              rw [hoccEq]
              simp
            · intro _
              exact ⟨_, List.mem_append.mpr (Or.inr (List.mem_singleton.mpr rfl)), rfl⟩
          · rw [hoccNe s hs]
            rw [← ih.2 s]
            constructor
            · rintro ⟨r, hr, rfl⟩
              rcases List.mem_append.mp hr with hold | hnew
              · exact ⟨r, hold, rfl⟩
              · have := List.mem_singleton.mp hnew
                subst this
                exact absurd rfl hs
            · rintro ⟨r, hr, rfl⟩
              exact ⟨r, List.mem_append.mpr (Or.inl hr), rfl⟩


/- ## C6: ranking order -/

/-- Claim C6: for every finite input sequence, the emitted table lists the
AggregateRecords in non-increasing order of occurrence_count; records with
equal occurrence_count appear in first-encounter order (for every count c,
the count-c records of the output are exactly the count-c records of the
first-encounter-ordered accumulator, in that order); the output is a function
of the input, hence deterministic; and on the concrete nine-row input with
counts 5, 1, 3 (first seen in that order) the emitted counts are 5, 3, 1. -/
theorem c6_ranking :
    (∀ rows : List (Str × Str),
      List.Pairwise (fun a b => b.count ≤ a.count) (classify_rows rows) ∧
      ∀ c : Nat, (classify_rows rows).filter (fun r => r.count == c) =
        (aggregate_rows rows).filter (fun r => r.count == c)) ∧
    (classify_rows c6_rows).map (fun r => (r.signature, r.count)) =
      [((("AlphaException: boom alpha").data), 5),
       ((("GammaException: boom gamma").data), 3),
       ((("BetaException: boom beta").data), 1)] := by
  refine ⟨fun rows => ⟨pairwise_sortDesc (aggregate_rows rows),
    fun c => filter_sortDesc (aggregate_rows rows) c⟩, ?_⟩
  decide

/- ## C7: sample immutability -/

/-- Claim C7: for every input event sequence and every record of the
aggregate over the cleaned (anonymized) rows, the record's sample_message is
the full message of the first cleaned row that produced the record's
signature; later occurrences never overwrite it. -/
theorem c7_sample_immutability (events : List (Str × Str)) (r : AggRecord)
    (hr : r ∈ aggregate_rows (process_log_events events)) :
    (occurrences (process_log_events events) r.signature).head?.map (fun p => p.2) =
      some r.sample_message :=
  ((agg_inv (process_log_events events)).1 r hr).1

/-- Witness for C7 on the two-event input `c7_wit_events`, whose events share
one signature: the record is in the aggregate and its sample is the first
cleaned message. -/
theorem c7_sample_immutability_witness :
    c7_wit_rec ∈ aggregate_rows (process_log_events c7_wit_events) ∧
    (occurrences (process_log_events c7_wit_events) c7_wit_rec.signature).head?.map
        (fun p => p.2) =
      some c7_wit_rec.sample_message :=
  ⟨by decide, c7_sample_immutability c7_wit_events c7_wit_rec (by decide)⟩

/- ## C10: type and location follow the last occurrence -/

/-- Claim C10: for every row sequence and every record of the aggregate, the
record's error_type and location are the ones extracted from the last
occurrence (in input order) of the record's signature — each occurrence
overwrites them — while the sample_message is kept from the first
occurrence. -/
theorem c10_last_occurrence_wins (rows : List (Str × Str)) (r : AggRecord)
    (hr : r ∈ aggregate_rows rows) :
    (occurrences rows r.signature).getLast?.map
        (fun p => ((extract_error_signature p.2).1, (extract_error_signature p.2).2.1)) =
      some (r.error_type, r.location) ∧
    (occurrences rows r.signature).head?.map (fun p => p.2) = some r.sample_message :=
  ⟨((agg_inv rows).1 r hr).2, ((agg_inv rows).1 r hr).1⟩

/-- Witness for C10 on the two-row input `c10_wit_rows`, whose rows share the
signature `FooException: boom` but have different stack-frame locations: the
record stores the location of the last row (C.stop) and the sample of the
first. -/
theorem c10_last_occurrence_wins_witness :
    c10_wit_rec ∈ aggregate_rows c10_wit_rows ∧
    ((occurrences c10_wit_rows c10_wit_rec.signature).getLast?.map
        (fun p => ((extract_error_signature p.2).1, (extract_error_signature p.2).2.1)) =
      some (c10_wit_rec.error_type, c10_wit_rec.location) ∧
    (occurrences c10_wit_rows c10_wit_rec.signature).head?.map (fun p => p.2) =
      some c10_wit_rec.sample_message) :=
  ⟨by decide, c10_last_occurrence_wins c10_wit_rows c10_wit_rec (by decide)⟩

end ProdMonitoring
